import Mathlib

/-
Verification of the docu_mind retrieval engine (src/rag.py).

The engine ranks a fixed corpus of text facts against a free-text query
with TF-IDF weights and cosine similarity.  The Python code delegates the
vector math to scikit-learn (TfidfVectorizer, cosine_similarity) and to
numpy (argmax); those library components are not part of the repository
source, so they are modelled here from the formulas the specification
fixes for them (smoothed idf, raw term counts, L2 normalization, dot
product of unit vectors, first-occurrence argmax).  Everything else —
the RAGEngine class, its loader, search, and the CLI threshold in main —
is translated from src/rag.py directly.

Conventions: Python floats become real numbers; a Python value of None
becomes Option.none; machine strings are Lean strings with an
ASCII-faithful model of lower-casing and of the word tokenizer.
-/

namespace DocuMind

/-- Modelled from the spec: a word character for the default token
pattern of the vectorizer, a run of two or more alphanumeric characters
(the regex class also admits the underscore). -/
def isWordChar (c : Char) : Bool := c.isAlphanum || c == '_'

/-- Modelled from the spec: the Tokenizer of section 4.1.  Lower-cases
the text, splits on runs of non-word characters and keeps only tokens of
length at least two.  TfidfVectorizer is library code, absent from src/. -/
def tokenize (s : String) : List String :=
  (((s.data.map Char.toLower).splitOnP fun c => !isWordChar c).filter
      fun t => 2 ≤ t.length).map fun cs => String.mk cs

/-- Modelled from the spec: the Vocabulary Builder of section 4.2.  Every
distinct term of the bag, in ascending lexicographic order. -/
def vocab (bag : List String) : List String :=
  ((bag.flatMap tokenize).dedup).mergeSort fun a b => decide (a ≤ b)

/-- Modelled from the spec: raw term frequency, the raw count of the term
in the text (section 4.3). -/
def tf (text w : String) : Nat := (tokenize text).count w

/-- Modelled from the spec: document frequency of a term over the bag,
the number of texts of the bag containing the term at least once. -/
def df (bag : List String) (w : String) : Nat :=
  bag.countP fun t => (tokenize t).contains w

/-- Modelled from the spec: smoothed inverse document frequency,
idf(w) = ln((1 + N) / (1 + df(w))) + 1 with N the size of the bag. -/
noncomputable def idf (bag : List String) (w : String) : ℝ :=
  Real.log ((1 + (bag.length : ℝ)) / (1 + (df bag w : ℝ))) + 1

/-- Modelled from the spec: raw weight of a term for a text,
tf(text, w) * idf(w), before L2 normalization. -/
noncomputable def rawWeight (bag : List String) (text w : String) : ℝ :=
  (tf text w : ℝ) * idf bag w

/-- Dot product of the raw weight vectors of two texts over the bag
vocabulary.  The diagonal value dotRaw bag t t is the squared Euclidean
norm of the raw vector of t. -/
noncomputable def dotRaw (bag : List String) (a b : String) : ℝ :=
  ((vocab bag).map fun w => rawWeight bag a w * rawWeight bag b w).sum

/-- Modelled from the spec: the final (emitted) weight of section 4.3,
the raw weight divided by the Euclidean norm of the raw weight vector of
the text.  With the division-by-zero convention of the reals an all-zero
raw vector stays all-zero, exactly as the spec requires. -/
noncomputable def normWeight (bag : List String) (text w : String) : ℝ :=
  rawWeight bag text w / Real.sqrt (dotRaw bag text text)

/-- Modelled from the spec: cosine similarity as computed by the code
path, the dot product of the two L2-normalized weight vectors
(section 4.4); a zero vector yields similarity 0. -/
noncomputable def cosineSim (bag : List String) (a b : String) : ℝ :=
  ((vocab bag).map fun w => normWeight bag a w * normWeight bag b w).sum

/-- The result record returned by a successful search (src/rag.py,
dataclass SearchResult). -/
structure SearchResult where
  index : Nat
  score : ℝ
  content : String

/-- The engine state (src/rag.py, class RAGEngine): the knowledge path it
was constructed from and the loaded document list. -/
structure RAGEngine where
  knowledge_path : String
  documents : List String

/-- Python str.strip: drop leading and trailing whitespace. -/
def pyStrip (s : String) : String :=
  String.mk (((s.data.dropWhile Char.isWhitespace).reverse.dropWhile
      Char.isWhitespace).reverse)

/-- The pure core of RAGEngine._load_knowledge (src/rag.py line 34):
strip every line of the knowledge file and drop the blank ones.  The
surrounding file I/O (FileNotFoundError handling) is outside the model. -/
def loadKnowledge (lines : List String) : List String :=
  (lines.map pyStrip).filter fun l => !(l == "")

/-- Engine construction (src/rag.py, RAGEngine.__init__) as a function of
the knowledge-file contents: it stores the path and the filtered lines
and cannot fail once the file was read. -/
def mkEngine (path : String) (lines : List String) : RAGEngine :=
  ⟨path, loadKnowledge lines⟩

/-- The per-document similarity row computed by search (src/rag.py line
71): cosine similarity of each document against the query, both
vectorized over the bag formed by the documents followed by the query. -/
noncomputable def similarities (docs : List String) (q : String) : List ℝ :=
  docs.map fun d => cosineSim (docs ++ [q]) d q

/-- Modelled from the spec: np.argmax as used on line 74, a linear scan
keeping the first-seen maximum.  Returns the pair of the lowest index
attaining the maximum and the maximum value; junk value (0, 0) on the
empty list, which search never queries. -/
noncomputable def bestPair : List ℝ → Nat × ℝ
  | [] => (0, 0)
  | [x] => (0, x)
  | x :: y :: xs =>
    if x < (bestPair (y :: xs)).2 then
      ((bestPair (y :: xs)).1 + 1, (bestPair (y :: xs)).2)
    else (0, x)

/-- RAGEngine.search (src/rag.py lines 42-77).  Returns None when the
document list is empty (line 52) or when fit_transform raises ValueError
because the bag has an empty vocabulary (lines 60-64); otherwise returns
the argmax document with its similarity score, with no thresholding. -/
noncomputable def RAGEngine.search (e : RAGEngine) (q : String) :
    Option SearchResult :=
  if e.documents = [] then none
  else if vocab (e.documents ++ [q]) = [] then none
  else
    some ⟨(bestPair (similarities e.documents q)).1,
      (similarities e.documents q).getD
        (bestPair (similarities e.documents q)).1 0,
      e.documents.getD (bestPair (similarities e.documents q)).1 ""⟩

/-- The CLI decision of main (src/rag.py line 111): a result is shown as
a match exactly when search returned something and its score is strictly
greater than the hard-coded cutoff 0.1. -/
def mainShowsMatch : Option SearchResult → Prop
  | none => False
  | some r => (0.1 : ℝ) < r.score

/-! ### Vocabulary lemmas -/

theorem mem_vocab {bag : List String} {w : String} :
    w ∈ vocab bag ↔ ∃ t ∈ bag, w ∈ tokenize t := by
  unfold vocab
  rw [(List.mergeSort_perm _ _).mem_iff, List.mem_dedup, List.mem_flatMap]

theorem vocab_nodup (bag : List String) : (vocab bag).Nodup := by
  unfold vocab
  exact ((List.mergeSort_perm _ _).nodup_iff).mpr (List.nodup_dedup _)

theorem vocab_eq_nil_iff {bag : List String} :
    vocab bag = [] ↔ ∀ t ∈ bag, tokenize t = [] := by
  unfold vocab
  constructor
  · intro h
    have hp := List.mergeSort_perm ((bag.flatMap tokenize).dedup)
      fun a b => decide (a ≤ b)
    rw [h] at hp
    have hd : (bag.flatMap tokenize).dedup = [] := hp.symm.eq_nil
    exact List.flatMap_eq_nil_iff.mp ((List.dedup_eq_nil _).mp hd)
  · intro h
    rw [List.flatMap_eq_nil_iff.mpr h]
    simp

theorem vocab_ne_nil {bag : List String}
    (h : ∃ t ∈ bag, tokenize t ≠ []) : vocab bag ≠ [] := by
  intro hv
  obtain ⟨t, ht, hne⟩ := h
  exact hne (vocab_eq_nil_iff.mp hv t ht)

/-! ### Weight lemmas -/

theorem one_le_idf (bag : List String) (w : String) : 1 ≤ idf bag w := by
  unfold idf
  have hdf : (df bag w : ℝ) ≤ (bag.length : ℝ) := by
    exact_mod_cast List.countP_le_length _
  have hpos : (0 : ℝ) < 1 + (df bag w : ℝ) := by positivity
  have h1 : (1 : ℝ) ≤ (1 + (bag.length : ℝ)) / (1 + (df bag w : ℝ)) := by
    rw [one_le_div hpos]
    linarith
  have := Real.log_nonneg h1
  linarith

theorem idf_pos (bag : List String) (w : String) : 0 < idf bag w :=
  lt_of_lt_of_le one_pos (one_le_idf bag w)

theorem rawWeight_nonneg (bag : List String) (text w : String) :
    0 ≤ rawWeight bag text w :=
  mul_nonneg (Nat.cast_nonneg _) (idf_pos bag w).le

theorem rawWeight_eq_zero {bag : List String} {text w : String}
    (h : w ∉ tokenize text) : rawWeight bag text w = 0 := by
  unfold rawWeight tf
  rw [List.count_eq_zero.mpr h]
  simp

theorem one_le_rawWeight {bag : List String} {text w : String}
    (h : w ∈ tokenize text) : 1 ≤ rawWeight bag text w := by
  unfold rawWeight
  have htf : (1 : ℝ) ≤ (tf text w : ℝ) := by
    have : 0 < tf text w := List.count_pos_iff.mpr h
    exact_mod_cast this
  calc (1 : ℝ) = 1 * 1 := by ring
  _ ≤ (tf text w : ℝ) * idf bag w :=
      mul_le_mul htf (one_le_idf bag w) zero_le_one
        (le_trans zero_le_one htf)

/-! ### Dot product lemmas -/

theorem list_sum_pos_of_mem {l : List ℝ} {x : ℝ} (hx : x ∈ l)
    (hpos : 0 < x) (hnn : ∀ y ∈ l, 0 ≤ y) : 0 < l.sum :=
  lt_of_lt_of_le hpos (List.single_le_sum hnn x hx)

theorem dotRaw_nonneg (bag : List String) (a b : String) :
    0 ≤ dotRaw bag a b := by
  apply List.sum_nonneg
  intro x hx
  obtain ⟨w, _, rfl⟩ := List.mem_map.mp hx
  exact mul_nonneg (rawWeight_nonneg bag a w) (rawWeight_nonneg bag b w)

theorem dotRaw_self_pos {bag : List String} {t : String} (ht : t ∈ bag)
    (htok : tokenize t ≠ []) : 0 < dotRaw bag t t := by
  obtain ⟨w, hw⟩ := List.exists_mem_of_ne_nil _ htok
  have hwv : w ∈ vocab bag := mem_vocab.mpr ⟨t, ht, hw⟩
  apply list_sum_pos_of_mem
      (x := rawWeight bag t w * rawWeight bag t w)
  · exact List.mem_map_of_mem _ hwv
  · have h1 := @one_le_rawWeight bag t w hw
    nlinarith
  · intro y hy
    obtain ⟨v, _, rfl⟩ := List.mem_map.mp hy
    exact mul_nonneg (rawWeight_nonneg bag t v) (rawWeight_nonneg bag t v)

theorem dotRaw_self_eq_sum_sq (bag : List String) (a : String) :
    dotRaw bag a a =
      ∑ w ∈ (vocab bag).toFinset, rawWeight bag a w ^ 2 := by
  unfold dotRaw
  rw [← List.sum_toFinset _ (vocab_nodup bag)]
  exact Finset.sum_congr rfl fun w _ => (pow_two _).symm

theorem dotRaw_cauchy_schwarz (bag : List String) (a b : String) :
    dotRaw bag a b ≤
      Real.sqrt (dotRaw bag a a) * Real.sqrt (dotRaw bag b b) := by
  have hcs := Finset.sum_mul_sq_le_sq_mul_sq (vocab bag).toFinset
    (fun w => rawWeight bag a w) (fun w => rawWeight bag b w)
  have hab : dotRaw bag a b =
      ∑ w ∈ (vocab bag).toFinset, rawWeight bag a w * rawWeight bag b w := by
    unfold dotRaw
    rw [← List.sum_toFinset _ (vocab_nodup bag)]
  calc dotRaw bag a b
      = Real.sqrt ((dotRaw bag a b) ^ 2) :=
        (Real.sqrt_sq (dotRaw_nonneg bag a b)).symm
  _ ≤ Real.sqrt (dotRaw bag a a * dotRaw bag b b) := by
      apply Real.sqrt_le_sqrt
      rw [hab, dotRaw_self_eq_sum_sq, dotRaw_self_eq_sum_sq]
      exact hcs
  _ = Real.sqrt (dotRaw bag a a) * Real.sqrt (dotRaw bag b b) :=
      Real.sqrt_mul (dotRaw_nonneg bag a a) _

/-! ### Cosine similarity lemmas -/

theorem cosineSim_eq_div (bag : List String) (a b : String) :
    cosineSim bag a b = dotRaw bag a b /
      (Real.sqrt (dotRaw bag a a) * Real.sqrt (dotRaw bag b b)) := by
  unfold cosineSim normWeight
  rcases eq_or_ne (Real.sqrt (dotRaw bag a a)) 0 with ha | ha
  · rw [ha]
    have hz : ∀ x ∈ (vocab bag).map fun w =>
        rawWeight bag a w / 0 *
          (rawWeight bag b w / Real.sqrt (dotRaw bag b b)), x = 0 := by
      intro x hx
      obtain ⟨w, _, rfl⟩ := List.mem_map.mp hx
      simp
    rw [List.sum_eq_zero hz, zero_mul, div_zero]
  · rcases eq_or_ne (Real.sqrt (dotRaw bag b b)) 0 with hb | hb
    · rw [hb]
      have hz : ∀ x ∈ (vocab bag).map fun w =>
          rawWeight bag a w / Real.sqrt (dotRaw bag a a) *
            (rawWeight bag b w / 0), x = 0 := by
        intro x hx
        obtain ⟨w, _, rfl⟩ := List.mem_map.mp hx
        simp
      rw [List.sum_eq_zero hz, mul_zero, div_zero]
    · have hcong : ((vocab bag).map fun w =>
          rawWeight bag a w / Real.sqrt (dotRaw bag a a) *
            (rawWeight bag b w / Real.sqrt (dotRaw bag b b))) =
          (vocab bag).map fun w =>
            (fun v => rawWeight bag a v * rawWeight bag b v) w *
              (Real.sqrt (dotRaw bag a a) * Real.sqrt (dotRaw bag b b))⁻¹ := by
        apply List.map_congr_left
        intro w _
        field_simp
      rw [hcong, List.sum_map_mul_right, ← div_eq_mul_inv]
      rfl

theorem cosineSim_nonneg (bag : List String) (a b : String) :
    0 ≤ cosineSim bag a b := by
  rw [cosineSim_eq_div]
  exact div_nonneg (dotRaw_nonneg bag a b)
    (mul_nonneg (Real.sqrt_nonneg _) (Real.sqrt_nonneg _))

theorem cosineSim_le_one (bag : List String) (a b : String) :
    cosineSim bag a b ≤ 1 := by
  rw [cosineSim_eq_div]
  rcases (mul_nonneg (Real.sqrt_nonneg (dotRaw bag a a))
      (Real.sqrt_nonneg (dotRaw bag b b))).eq_or_gt with h | h
  · rw [h, div_zero]
    exact zero_le_one
  · rw [div_le_one h]
    exact dotRaw_cauchy_schwarz bag a b

theorem cosineSim_self {bag : List String} {a : String}
    (h : 0 < dotRaw bag a a) : cosineSim bag a a = 1 := by
  rw [cosineSim_eq_div, Real.mul_self_sqrt h.le]
  exact div_self h.ne'

theorem cosineSim_disjoint {bag : List String} {a b : String}
    (h : ∀ w ∈ tokenize a, w ∉ tokenize b) : cosineSim bag a b = 0 := by
  unfold cosineSim
  apply List.sum_eq_zero
  intro x hx
  obtain ⟨w, _, rfl⟩ := List.mem_map.mp hx
  by_cases hw : w ∈ tokenize a
  · unfold normWeight
    rw [rawWeight_eq_zero (h w hw), zero_div, mul_zero]
  · unfold normWeight
    rw [rawWeight_eq_zero hw, zero_div, zero_mul]

/-! ### First-occurrence argmax lemmas -/

theorem bp_len : ∀ (l : List ℝ), l ≠ [] → (bestPair l).1 < l.length
  | [x], _ => by simp [bestPair]
  | x :: y :: xs, _ => by
    have ih := bp_len (y :: xs) (by simp)
    simp only [bestPair]
    split
    · simpa using Nat.succ_lt_succ ih
    · simp

theorem bp_val : ∀ (l : List ℝ), l ≠ [] →
    l.getD (bestPair l).1 0 = (bestPair l).2
  | [x], _ => by simp [bestPair]
  | x :: y :: xs, _ => by
    have ih := bp_val (y :: xs) (by simp)
    simp only [bestPair]
    split
    · simpa [List.getD_cons_succ] using ih
    · simp

theorem bp_max : ∀ (l : List ℝ) (j : Nat), j < l.length →
    l.getD j 0 ≤ (bestPair l).2
  | [], j, hj => by simp at hj
  | [x], j, hj => by
    have : j = 0 := by simpa using Nat.lt_one_iff.mp (by simpa using hj)
    subst this
    simp [bestPair]
  | x :: y :: xs, j, hj => by
    simp only [bestPair]
    split
    case isTrue h =>
      cases j with
      | zero => simpa using h.le
      | succ j =>
        have hj2 : j < (y :: xs).length := by simpa using hj
        simpa [List.getD_cons_succ] using bp_max (y :: xs) j hj2
    case isFalse h =>
      cases j with
      | zero => simp
      | succ j =>
        have hj2 : j < (y :: xs).length := by simpa using hj
        have := bp_max (y :: xs) j hj2
        have hle := le_of_not_lt h
        simpa [List.getD_cons_succ] using le_trans this hle

theorem bp_first : ∀ (l : List ℝ) (j : Nat), j < (bestPair l).1 →
    l.getD j 0 < (bestPair l).2
  | [], j, hj => by simp [bestPair] at hj
  | [x], j, hj => by simp [bestPair] at hj
  | x :: y :: xs, j, hj => by
    simp only [bestPair] at hj ⊢
    split
    case isTrue h =>
      rw [if_pos h] at hj
      cases j with
      | zero => simpa using h
      | succ j =>
        have hj2 : j < (bestPair (y :: xs)).1 := by simpa using hj
        simpa [List.getD_cons_succ] using bp_first (y :: xs) j hj2
    case isFalse h =>
      rw [if_neg h] at hj
      simp at hj

theorem bp_zero : ∀ (l : List ℝ),
    (∀ j, j < l.length → l.getD j 0 = 0) → bestPair l = (0, 0)
  | [], _ => by simp [bestPair]
  | [x], h => by
    have := h 0 (by simp)
    simp at this
    simp [bestPair, this]
  | x :: y :: xs, h => by
    have htail : ∀ j, j < (y :: xs).length → (y :: xs).getD j 0 = 0 := by
      intro j hj
      have := h (j + 1) (by simpa using hj)
      simpa [List.getD_cons_succ] using this
    have hx : x = 0 := by simpa using h 0 (by simp)
    have ih := bp_zero (y :: xs) htail
    simp [bestPair, ih, hx]

/-! ### Search characterization lemmas -/

theorem length_similarities (docs : List String) (q : String) :
    (similarities docs q).length = docs.length := by
  simp [similarities]

theorem similarities_getD {docs : List String} {q : String} {j : Nat}
    (hj : j < docs.length) :
    (similarities docs q).getD j 0 =
      cosineSim (docs ++ [q]) (docs.getD j "") q := by
  have hj2 : j < (similarities docs q).length := by
    rw [length_similarities]
    exact hj
  rw [List.getD_eq_getElem _ _ hj2, List.getD_eq_getElem _ _ hj]
  simp [similarities]

theorem search_eq {e : RAGEngine} {q : String} (h1 : e.documents ≠ [])
    (h2 : vocab (e.documents ++ [q]) ≠ []) :
    e.search q = some ⟨(bestPair (similarities e.documents q)).1,
      (similarities e.documents q).getD
        (bestPair (similarities e.documents q)).1 0,
      e.documents.getD (bestPair (similarities e.documents q)).1 ""⟩ := by
  unfold RAGEngine.search
  rw [if_neg h1, if_neg h2]

theorem search_some_cases {e : RAGEngine} {q : String} {r : SearchResult}
    (h : e.search q = some r) :
    e.documents ≠ [] ∧ vocab (e.documents ++ [q]) ≠ [] ∧
      r = ⟨(bestPair (similarities e.documents q)).1,
        (similarities e.documents q).getD
          (bestPair (similarities e.documents q)).1 0,
        e.documents.getD (bestPair (similarities e.documents q)).1 ""⟩ := by
  unfold RAGEngine.search at h
  by_cases h1 : e.documents = []
  · rw [if_pos h1] at h
    exact absurd h (by simp)
  · rw [if_neg h1] at h
    by_cases h2 : vocab (e.documents ++ [q]) = []
    · rw [if_pos h2] at h
      exact absurd h (by simp)
    · rw [if_neg h2] at h
      exact ⟨h1, h2, (Option.some.inj h).symm⟩

/-- On a non-empty corpus whose documents share no token with the query,
search still returns a result: index 0 with score exactly 0 (all
similarities vanish, and np.argmax of an all-zero row is 0).  The bag
must keep a non-empty vocabulary, otherwise search returns none. -/
theorem search_zero_of_disjoint {e : RAGEngine} {q : String}
    (hne : e.documents ≠ [])
    (htok : ∃ t ∈ e.documents ++ [q], tokenize t ≠ [])
    (hdisj : ∀ d ∈ e.documents, ∀ w ∈ tokenize d, w ∉ tokenize q) :
    e.search q = some ⟨0, 0, e.documents.getD 0 ""⟩ := by
  have hz : ∀ j, j < (similarities e.documents q).length →
      (similarities e.documents q).getD j 0 = 0 := by
    intro j hj
    have hj2 : j < e.documents.length := by
      rw [length_similarities] at hj
      exact hj
    rw [similarities_getD hj2]
    apply cosineSim_disjoint
    intro w hw
    have hmem : e.documents.getD j "" ∈ e.documents := by
      rw [List.getD_eq_getElem _ _ hj2]
      exact List.getElem_mem hj2
    exact hdisj _ hmem w hw
  have hbp : bestPair (similarities e.documents q) = (0, 0) :=
    bp_zero _ hz
  have hlen : 0 < (similarities e.documents q).length := by
    rw [length_similarities]
    exact List.length_pos.mpr hne
  have h0 : (similarities e.documents q).getD 0 0 = 0 := hz 0 hlen
  rw [search_eq hne (vocab_ne_nil htok), hbp, h0]

theorem similarities_ne_nil {docs : List String} {q : String}
    (hne : docs ≠ []) : similarities docs q ≠ [] := by
  rw [← List.length_pos, length_similarities]
  exact List.length_pos.mpr hne

theorem bp_lt_docs {docs : List String} {q : String} (hne : docs ≠ []) :
    (bestPair (similarities docs q)).1 < docs.length := by
  have := bp_len _ (similarities_ne_nil (q := q) hne)
  rw [length_similarities] at this
  exact this

/-! ### Claim C1 -/

/-- Claim C1 fails as stated: the corpus entry "??" is non-empty, the
query is character-for-character equal to it, yet search returns none
(the bag has no tokenizable term, fit_transform raises ValueError and
search maps it to None), not index 0 with score 1.0. -/
theorem claim_C1_counterexample :
    ("??" : String) ∈ (["??"] : List String) ∧
    (RAGEngine.mk "knowledge.txt" ["??"]).search "??" = none := by
  have h2 : vocab ((RAGEngine.mk "knowledge.txt" ["??"]).documents ++
      ["??"]) = [] := vocab_eq_nil_iff.mpr (by decide)
  refine ⟨by decide, ?_⟩
  unfold RAGEngine.search
  rw [if_neg (show ¬(RAGEngine.mk "knowledge.txt" ["??"]).documents = []
    by decide), if_pos h2]

/-- Claim C1 (amended): for every corpus and every query equal verbatim
to a corpus entry that has at least one tokenizable term, search returns
a result with score exactly 1; its index is in bounds, points at a
document whose cosine similarity to the query is 1, and is the lowest
index attaining the maximal similarity (every similarity is at most the
one at the returned index and every strictly earlier document has a
strictly smaller similarity); the content is the document at that
index.  In the spec scenario the result is index 1 with score 1. -/
theorem claim_C1 (e : RAGEngine) (q : String) (i : Nat)
    (hi : i < e.documents.length) (hq : e.documents.getD i "" = q)
    (ht : tokenize q ≠ []) :
    ∃ r, e.search q = some r ∧ r.score = 1 ∧
      r.index < e.documents.length ∧
      cosineSim (e.documents ++ [q]) (e.documents.getD r.index "") q = 1 ∧
      (∀ j, j < e.documents.length →
        (similarities e.documents q).getD j 0 ≤
          (similarities e.documents q).getD r.index 0) ∧
      (∀ j, j < r.index →
        (similarities e.documents q).getD j 0 <
          (similarities e.documents q).getD r.index 0) ∧
      r.content = e.documents.getD r.index "" := by
  have hne : e.documents ≠ [] := by
    intro h
    rw [h] at hi
    simp at hi
  have hqbag : q ∈ e.documents ++ [q] := by simp
  have hpos : 0 < dotRaw (e.documents ++ [q]) q q :=
    dotRaw_self_pos hqbag ht
  have hsne : similarities e.documents q ≠ [] :=
    similarities_ne_nil (q := q) hne
  have hi2 : i < (similarities e.documents q).length := by
    rw [length_similarities]
    exact hi
  have hsim_i : (similarities e.documents q).getD i 0 = 1 := by
    rw [similarities_getD hi, hq]
    exact cosineSim_self hpos
  have hp1d : (bestPair (similarities e.documents q)).1 <
      e.documents.length := bp_lt_docs (q := q) hne
  have hle : (similarities e.documents q).getD
      (bestPair (similarities e.documents q)).1 0 ≤ 1 := by
    rw [similarities_getD hp1d]
    exact cosineSim_le_one _ _ _
  have hge : (1 : ℝ) ≤ (similarities e.documents q).getD
      (bestPair (similarities e.documents q)).1 0 := by
    rw [bp_val _ hsne]
    have hmax := bp_max (similarities e.documents q) i hi2
    rw [hsim_i] at hmax
    exact hmax
  have hscore : (similarities e.documents q).getD
      (bestPair (similarities e.documents q)).1 0 = 1 :=
    le_antisymm hle hge
  have hcos : cosineSim (e.documents ++ [q])
      (e.documents.getD (bestPair (similarities e.documents q)).1 "")
      q = 1 := by
    rw [← similarities_getD hp1d]
    exact hscore
  have hmax2 : ∀ j, j < e.documents.length →
      (similarities e.documents q).getD j 0 ≤
        (similarities e.documents q).getD
          (bestPair (similarities e.documents q)).1 0 := by
    intro j hj
    rw [bp_val _ hsne]
    apply bp_max
    rw [length_similarities]
    exact hj
  have hfirst2 : ∀ j, j < (bestPair (similarities e.documents q)).1 →
      (similarities e.documents q).getD j 0 <
        (similarities e.documents q).getD
          (bestPair (similarities e.documents q)).1 0 := by
    intro j hj
    rw [bp_val _ hsne]
    exact bp_first _ j hj
  exact ⟨_, search_eq hne (vocab_ne_nil ⟨q, hqbag, ht⟩), hscore, hp1d,
    hcos, hmax2, hfirst2, rfl⟩

/-- Claim C1 witness: the spec scenario, instantiating the amended
theorem at the two-fact corpus with the query equal to the second
entry; the result has score 1 and index exactly 1, since the first
document shares no token with the query, so its similarity is 0 and
cannot be the maximal similarity 1. -/
theorem claim_C1_witness :
    ∃ r, (RAGEngine.mk "knowledge.txt"
        ["The sky is blue.", "Water boils at 100 degrees."]).search
        "Water boils at 100 degrees." = some r ∧ r.score = 1 ∧
      r.index = 1 := by
  obtain ⟨r, hs, hscore, hlen, hcos, -, -, -⟩ :=
    claim_C1 (RAGEngine.mk "knowledge.txt"
        ["The sky is blue.", "Water boils at 100 degrees."])
      "Water boils at 100 degrees." 1 (by decide) (by decide) (by decide)
  refine ⟨r, hs, hscore, ?_⟩
  by_contra hne1
  have h0 : r.index = 0 := by
    have h2 : r.index < 2 := hlen
    omega
  have hz : cosineSim
      ((RAGEngine.mk "knowledge.txt"
        ["The sky is blue.", "Water boils at 100 degrees."]).documents ++
        ["Water boils at 100 degrees."])
      ((RAGEngine.mk "knowledge.txt"
        ["The sky is blue.", "Water boils at 100 degrees."]).documents.getD
        0 "")
      "Water boils at 100 degrees." = 0 :=
    cosineSim_disjoint (by decide)
  rw [h0, hz] at hcos
  exact absurd hcos (by norm_num)

/-! ### Claim C2 -/

/-- Claim C2 fails as stated: on the spec scenario corpus
["apple banana"] with query "xyz qwe" (no shared term), search does not
return None; it returns the argmax result, index 0 with score 0.  The
no-match message the user sees comes from the threshold in main, not
from search. -/
theorem claim_C2_counterexample :
    (RAGEngine.mk "knowledge.txt" ["apple banana"]).search "xyz qwe" =
      some ⟨0, 0, "apple banana"⟩ :=
  search_zero_of_disjoint (by decide) (by decide) (by decide)

/-- Claim C2 (amended): for every non-empty corpus and every query
sharing no term with any document, as long as the bag retains at least
one tokenizable term, search returns a result with index 0 and score 0
rather than NoMatch; search returns None for such queries only when the
corpus is empty or the whole bag has no tokens.  The NoMatch outcome of
the spec is produced by the cutoff in main. -/
theorem claim_C2 (e : RAGEngine) (q : String) (hne : e.documents ≠ [])
    (htok : ∃ t ∈ e.documents ++ [q], tokenize t ≠ [])
    (hdisj : ∀ d ∈ e.documents, ∀ w ∈ tokenize d, w ∉ tokenize q) :
    ∃ r, e.search q = some r ∧ r.index = 0 ∧ r.score = 0 :=
  ⟨⟨0, 0, e.documents.getD 0 ""⟩,
    search_zero_of_disjoint hne htok hdisj, rfl, rfl⟩

/-- Claim C2 witness: the amended theorem instantiated at the spec
scenario corpus and query. -/
theorem claim_C2_witness :
    ∃ r, (RAGEngine.mk "knowledge.txt" ["apple banana"]).search
        "xyz qwe" = some r ∧ r.index = 0 ∧ r.score = 0 :=
  claim_C2 (RAGEngine.mk "knowledge.txt" ["apple banana"]) "xyz qwe"
    (by decide) (by decide) (by decide)

/-! ### Claim C3 -/

/-- Claim C3 fails as stated: search applies no threshold at all.  On
corpus ["aa bb"] with query "cc dd" the best score is 0, which equals
the reference default cutoff 0 and is below the configured cutoff 0.1,
yet search returns a result rather than NoMatch. -/
theorem claim_C3_counterexample :
    ∃ r, (RAGEngine.mk "knowledge.txt" ["aa bb"]).search "cc dd" =
        some r ∧ r.score = 0 ∧ ¬ ((0.1 : ℝ) < r.score) := by
  refine ⟨⟨0, 0, (["aa bb"] : List String).getD 0 ""⟩,
    search_zero_of_disjoint (by decide) (by decide) (by decide), rfl, ?_⟩
  norm_num

/-- Claim C3 (amended): the relevance threshold lives in main, not in
search.  Whenever the corpus is non-empty and the bag has a tokenizable
term, search returns some result whatever its score; main then reports a
match exactly when that score is strictly greater than 0.1, so a score
equal to the cutoff is treated as a non-match by main. -/
theorem claim_C3 (e : RAGEngine) (q : String) (hne : e.documents ≠ [])
    (htok : ∃ t ∈ e.documents ++ [q], tokenize t ≠ []) :
    ∃ r, e.search q = some r ∧
      (mainShowsMatch (e.search q) ↔ (0.1 : ℝ) < r.score) := by
  refine ⟨_, search_eq hne (vocab_ne_nil htok), ?_⟩
  rw [search_eq hne (vocab_ne_nil htok)]
  exact Iff.rfl

/-- Claim C3 witness: the amended theorem instantiated at a concrete
non-empty corpus with a tokenizable query. -/
theorem claim_C3_witness :
    ∃ r, (RAGEngine.mk "knowledge.txt" ["ee ff"]).search "gg hh" =
        some r ∧
      (mainShowsMatch ((RAGEngine.mk "knowledge.txt" ["ee ff"]).search
        "gg hh") ↔ (0.1 : ℝ) < r.score) :=
  claim_C3 (RAGEngine.mk "knowledge.txt" ["ee ff"]) "gg hh"
    (by decide) (by decide)

/-! ### Claim C4 -/

/-- Claim C4 fails as stated: constructing the engine from a knowledge
file holding only blank lines (zero usable documents) does not fail; it
yields a ready engine whose document list is empty and which answers
every search with None.  Only a missing or unreadable file aborts, and
that happens in the I/O layer, not on an empty corpus. -/
theorem claim_C4_counterexample :
    (mkEngine "knowledge.txt" ["", "   "]).documents = [] ∧
    (mkEngine "knowledge.txt" ["", "   "]).search "water" = none := by
  have hd : (mkEngine "knowledge.txt" ["", "   "]).documents = [] := by
    decide
  refine ⟨hd, ?_⟩
  unfold RAGEngine.search
  rw [if_pos hd]

/-- Claim C4 (amended): construction with zero usable documents
succeeds and produces an engine with an empty document list; search on
that engine returns None (the NoMatch value) for every query instead of
failing at construction time. -/
theorem claim_C4 (path : String) (lines : List String) (q : String)
    (h : ∀ l ∈ lines, pyStrip l = "") :
    (mkEngine path lines).documents = [] ∧
      (mkEngine path lines).search q = none := by
  have hd : (mkEngine path lines).documents = [] := by
    show loadKnowledge lines = []
    unfold loadKnowledge
    rw [List.filter_eq_nil_iff]
    intro a ha
    obtain ⟨l, hl, rfl⟩ := List.mem_map.mp ha
    rw [h l hl]
    simp
  refine ⟨hd, ?_⟩
  unfold RAGEngine.search
  rw [if_pos hd]

/-- Claim C4 witness: the amended theorem instantiated at a file of
blank lines. -/
theorem claim_C4_witness :
    (mkEngine "knowledge.txt" ["  ", "\t"]).documents = [] ∧
      (mkEngine "knowledge.txt" ["  ", "\t"]).search "query" = none :=
  claim_C4 "knowledge.txt" ["  ", "\t"] "query" (by decide)

/-! ### Claim C5 -/

/-- Claim C5: when neither the documents nor the query contain any
tokenizable term, search returns None (the NoMatch value) instead of
raising: the empty-vocabulary ValueError of fit_transform is caught on
lines 62-64 of src/rag.py. -/
theorem claim_C5 (e : RAGEngine) (q : String)
    (hdocs : ∀ t ∈ e.documents, tokenize t = [])
    (hq : tokenize q = []) : e.search q = none := by
  unfold RAGEngine.search
  by_cases hd : e.documents = []
  · rw [if_pos hd]
  · have hv : vocab (e.documents ++ [q]) = [] := by
      rw [vocab_eq_nil_iff]
      intro t htm
      rcases List.mem_append.mp htm with h | h
      · exact hdocs t h
      · rw [List.mem_singleton.mp h]
        exact hq
    rw [if_neg hd, if_pos hv]

/-- Claim C5 witness: a corpus of punctuation-only and single-character
texts with a punctuation-only query. -/
theorem claim_C5_witness :
    (RAGEngine.mk "knowledge.txt" ["!!", "?"]).search "..." = none :=
  claim_C5 (RAGEngine.mk "knowledge.txt" ["!!", "?"]) "..."
    (by decide) (by decide)

/-! ### Claim C6 -/

/-- Claim C6: whenever search returns a result, its index is the lowest
index attaining the maximal similarity: every similarity is at most the
one at the returned index, and every strictly earlier document has a
strictly smaller similarity.  In particular two lexically identical
documents tie and the lower index wins. -/
theorem claim_C6 (e : RAGEngine) (q : String) (hne : e.documents ≠ [])
    (htok : ∃ t ∈ e.documents ++ [q], tokenize t ≠ []) :
    ∃ r, e.search q = some r ∧ r.index < e.documents.length ∧
      (∀ j, j < e.documents.length →
        (similarities e.documents q).getD j 0 ≤
          (similarities e.documents q).getD r.index 0) ∧
      (∀ j, j < r.index →
        (similarities e.documents q).getD j 0 <
          (similarities e.documents q).getD r.index 0) := by
  have hsne : similarities e.documents q ≠ [] :=
    similarities_ne_nil (q := q) hne
  have hp1d : (bestPair (similarities e.documents q)).1 <
      e.documents.length := bp_lt_docs (q := q) hne
  have hmax : ∀ j, j < e.documents.length →
      (similarities e.documents q).getD j 0 ≤
        (similarities e.documents q).getD
          (bestPair (similarities e.documents q)).1 0 := by
    intro j hj
    rw [bp_val _ hsne]
    apply bp_max
    rw [length_similarities]
    exact hj
  have hfirst : ∀ j, j < (bestPair (similarities e.documents q)).1 →
      (similarities e.documents q).getD j 0 <
        (similarities e.documents q).getD
          (bestPair (similarities e.documents q)).1 0 := by
    intro j hj
    rw [bp_val _ hsne]
    exact bp_first _ j hj
  exact ⟨_, search_eq hne (vocab_ne_nil htok), hp1d, hmax, hfirst⟩

/-- Claim C6 witness: the spec scenario corpus of two identical
documents with the same query; the theorem forces the returned index to
be 0, since equal documents have equal similarities and no strictly
smaller earlier entry can exist. -/
theorem claim_C6_witness :
    ∃ r, (RAGEngine.mk "knowledge.txt"
        ["same text", "same text"]).search "same text" = some r ∧
      r.index = 0 := by
  obtain ⟨r, hs, hlen, hmax, hfirst⟩ :=
    claim_C6 (RAGEngine.mk "knowledge.txt" ["same text", "same text"])
      "same text" (by decide) (by decide)
  refine ⟨r, hs, ?_⟩
  by_contra hne0
  have h1 : r.index = 1 := by
    have h2 : r.index < 2 := hlen
    omega
  have heq : (similarities
        ((RAGEngine.mk "knowledge.txt"
          ["same text", "same text"]).documents) "same text").getD 0 0 =
      (similarities
        ((RAGEngine.mk "knowledge.txt"
          ["same text", "same text"]).documents) "same text").getD 1 0 := by
    rw [similarities_getD (by decide), similarities_getD (by decide)]
    rfl
  have hlt := hfirst 0 (by rw [h1]; norm_num)
  rw [h1] at hlt
  rw [heq] at hlt
  exact lt_irrefl _ hlt

/-! ### Claim C7 -/

/-- Claim C7: every score search returns lies in the closed interval
from 0 to 1: it is a cosine similarity of two vectors with non-negative
entries, bounded by the Cauchy-Schwarz inequality. -/
theorem claim_C7 (e : RAGEngine) (q : String) (r : SearchResult)
    (h : e.search q = some r) : 0 ≤ r.score ∧ r.score ≤ 1 := by
  obtain ⟨hne, hvoc, hr⟩ := search_some_cases h
  have hp1d : (bestPair (similarities e.documents q)).1 <
      e.documents.length := bp_lt_docs (q := q) hne
  have hg := similarities_getD (q := q) hp1d
  have h0 : 0 ≤ (similarities e.documents q).getD
      (bestPair (similarities e.documents q)).1 0 := by
    rw [hg]
    exact cosineSim_nonneg _ _ _
  have h1 : (similarities e.documents q).getD
      (bestPair (similarities e.documents q)).1 0 ≤ 1 := by
    rw [hg]
    exact cosineSim_le_one _ _ _
  rw [hr]
  exact ⟨h0, h1⟩

/-- Claim C7 witness: a concrete search that returns a result, whose
score the theorem brackets between 0 and 1. -/
theorem claim_C7_witness :
    (RAGEngine.mk "knowledge.txt" ["ii jj"]).search "kk ll" =
      some ⟨0, 0, "ii jj"⟩ ∧
    (0 : ℝ) ≤ (SearchResult.mk 0 0 "ii jj").score ∧
      (SearchResult.mk 0 0 "ii jj").score ≤ 1 := by
  have hs : (RAGEngine.mk "knowledge.txt" ["ii jj"]).search "kk ll" =
      some ⟨0, 0, "ii jj"⟩ :=
    search_zero_of_disjoint (by decide) (by decide) (by decide)
  exact ⟨hs, claim_C7 _ _ _ hs⟩

/-! ### Claim C8 -/

/-- Claim C8: for every text of the bag and every term, the raw weight
is the raw occurrence count times the smoothed idf
ln((1 + N) / (1 + df)) + 1 with N the bag size, and the emitted weight
is the raw weight divided by the Euclidean norm of the raw vector of
the text; an all-zero raw vector stays all-zero (norm 0 divides to 0),
and otherwise the emitted vector has unit squared Euclidean norm over
the vocabulary. -/
theorem claim_C8 (bag : List String) (text : String) :
    (∀ w, normWeight bag text w =
        rawWeight bag text w / Real.sqrt (dotRaw bag text text) ∧
      rawWeight bag text w = (tf text w : ℝ) *
        (Real.log ((1 + (bag.length : ℝ)) / (1 + (df bag w : ℝ))) + 1)) ∧
    ((∀ w, normWeight bag text w = 0) ∨
      ((vocab bag).map fun w => normWeight bag text w ^ 2).sum = 1) := by
  refine ⟨fun w => ⟨rfl, rfl⟩, ?_⟩
  rcases eq_or_ne (dotRaw bag text text) 0 with hS | hS
  · left
    intro w
    unfold normWeight
    rw [hS, Real.sqrt_zero, div_zero]
  · right
    have hS0 : 0 ≤ dotRaw bag text text := dotRaw_nonneg bag text text
    have hsq : Real.sqrt (dotRaw bag text text) ^ 2 =
        dotRaw bag text text := Real.sq_sqrt hS0
    have hcong : ((vocab bag).map fun w => normWeight bag text w ^ 2) =
        (vocab bag).map fun w =>
          (fun v => rawWeight bag text v ^ 2) w *
            (dotRaw bag text text)⁻¹ := by
      apply List.map_congr_left
      intro w _
      unfold normWeight
      rw [div_pow, hsq, div_eq_mul_inv]
    have hsum : ((vocab bag).map fun w =>
        rawWeight bag text w ^ 2).sum = dotRaw bag text text := by
      unfold dotRaw
      apply congrArg List.sum
      apply List.map_congr_left
      intro w _
      exact pow_two _
    rw [hcong, List.sum_map_mul_right, hsum, mul_inv_cancel₀ hS]

/-! ### Claim C9 -/

/-- Claim C9: search is deterministic and stateless.  Its outcome is a
pure function of the document list and the query: two engines holding
the same documents (whatever knowledge path they were created from)
return the same result, index and score included, so repeated calls on
an unchanged corpus coincide. -/
theorem claim_C9 (e₁ e₂ : RAGEngine) (q : String)
    (h : e₁.documents = e₂.documents) : e₁.search q = e₂.search q := by
  obtain ⟨p₁, d₁⟩ := e₁
  obtain ⟨p₂, d₂⟩ := e₂
  have h2 : d₁ = d₂ := h
  subst h2
  rfl

/-- Claim C9 witness: two engines with the same corpus but different
knowledge paths answer the same query identically. -/
theorem claim_C9_witness :
    (RAGEngine.mk "knowledge.txt" ["water is wet"]).search "water" =
      (RAGEngine.mk "backup.txt" ["water is wet"]).search "water" :=
  claim_C9 (RAGEngine.mk "knowledge.txt" ["water is wet"])
    (RAGEngine.mk "backup.txt" ["water is wet"]) "water" rfl

/-! ### Claim C10 -/

/-- Claim C10: with a non-empty document list and at least one
tokenizable term somewhere in the bag, search always returns a result
(never None, even if the best similarity is 0), its index is strictly
below the number of documents, and its content is the document at that
index, so the final corpus indexing on line 77 is in bounds. -/
theorem claim_C10 (e : RAGEngine) (q : String) (hne : e.documents ≠ [])
    (htok : ∃ t ∈ e.documents ++ [q], tokenize t ≠ []) :
    ∃ r, e.search q = some r ∧ r.index < e.documents.length ∧
      r.content = e.documents.getD r.index "" :=
  ⟨_, search_eq hne (vocab_ne_nil htok), bp_lt_docs (q := q) hne, rfl⟩

/-- Claim C10 witness: a corpus and query with no common term, where
the best similarity is 0 and search still returns an in-bounds
result. -/
theorem claim_C10_witness :
    ∃ r, (RAGEngine.mk "knowledge.txt" ["mm nn"]).search "oo pp" =
        some r ∧ r.index < 1 ∧
      r.content = (["mm nn"] : List String).getD r.index "" :=
  claim_C10 (RAGEngine.mk "knowledge.txt" ["mm nn"]) "oo pp"
    (by decide) (by decide)

end DocuMind
